import Mathlib

/-!
# Verification of the portfolio chat engine ("LumoAI")

Shallow embedding of the conversational core of the repository:

* `FuzzyMatcher` (src/src/utils/FuzzyMatcher.ts) — Levenshtein-based similarity;
* `ContextValidator` (src/src/utils/ContextValidator.ts) — gibberish detection;
* `ContextManager` (src/src/utils/KnowledgeGraph.ts, second module) — conversation
  memory with entity-stack and topic decay;
* `ContextResolver` (src/unnamed/part_009) — weighted reference resolution;
* `LumoAI.generateResponse` (src/unnamed/part_012) — top-level turn handling.

Numeric values that are JavaScript numbers in the source are modelled as exact
rationals (`ℚ`); strings are Lean `String`s (the source only manipulates them
via lower-casing, trimming and substring containment).
-/

namespace Lumo

/-! ## FuzzyMatcher (src/src/utils/FuzzyMatcher.ts) -/

/-- Function `levenshteinDistance` from FuzzyMatcher.ts.  The source fills the classic
dynamic-programming matrix with `matrix[i][0] = i`, `matrix[0][j] = j` and
`matrix[i][j] = min(del+1, ins+1, sub+cost)`; the matrix entry `(i, j)` is the
edit distance of the length-`i` and length-`j` prefixes, so the function it
computes is exactly this recurrence on the two character lists. -/
def levenshteinDistance : List Char → List Char → Nat
  | [], ys => ys.length
  | x :: xs, [] => (x :: xs).length
  | x :: xs, y :: ys =>
      min (levenshteinDistance xs (y :: ys) + 1)
        (min (levenshteinDistance (x :: xs) ys + 1)
          (levenshteinDistance xs ys + (if x = y then 0 else 1)))
termination_by xs ys => xs.length + ys.length
decreasing_by all_goals simp_arith

/-- Does the character list start with `needle`? -/
def listStartsWith : List Char → List Char → Bool
  | _, [] => true
  | [], _ :: _ => false
  | x :: xs, y :: ys => x = y && listStartsWith xs ys

/-- JavaScript `haystack.includes(needle)`: contiguous substring containment. -/
def listContainsSeq : List Char → List Char → Bool
  | [], needle => needle.isEmpty
  | x :: xs, needle => listStartsWith (x :: xs) needle || listContainsSeq xs needle

/-- JavaScript `s.toLowerCase()` viewed as a character list. -/
def lowerChars (s : String) : List Char :=
  s.toList.map Char.toLower

/-- JavaScript `trim()`: strip leading and trailing whitespace. -/
def trimChars (l : List Char) : List Char :=
  ((l.dropWhile Char.isWhitespace).reverse.dropWhile Char.isWhitespace).reverse

/-- Composition `s.toLowerCase().trim()`, the normalization used throughout the source. -/
def normChars (s : String) : List Char :=
  trimChars (lowerChars s)

/-- Method `FuzzyMatcher.similarity` from FuzzyMatcher.ts:
1. `s1 === s2` → 1.0;
2. `!s1 || !s2` (an empty string is falsy in JavaScript) → 0.0;
3. normalize both by `toLowerCase().trim()`; if equal → 1.0;
4. otherwise `1 - distance / max(len1, len2)` over the normalized strings. -/
def similarity (s1 s2 : String) : ℚ :=
  if s1 = s2 then 1
  else if s1 = "" ∨ s2 = "" then 0
  else
    let str1 := normChars s1
    let str2 := normChars s2
    if str1 = str2 then 1
    else
      1 - (levenshteinDistance str1 str2 : ℚ) /
        (max str1.length str2.length : ℚ)

/-! ## ContextValidator (src/src/utils/ContextValidator.ts) -/

/-- The fixed gibberish substring patterns from `ContextValidator.isGibberish`. -/
def gibberishPatterns : List String :=
  ["asdf", "qwer", "zxcv", "jkl", "fdsa", "asd"]

/-- Character class `[aeiou]` used by the vowel-counting regex. -/
def isVowelChar (c : Char) : Bool :=
  ("aeiou".toList).contains c

/-- Character class `[bcdfghjklmnpqrstvwxyz]` used by the consonant regexes. -/
def isConsonantChar (c : Char) : Bool :=
  ("bcdfghjklmnpqrstvwxyz".toList).contains c

/-- Test for the regex `[bcdfghjklmnpqrstvwxyz]{6,}`: scanning left to right,
`count` is the length of the current consonant run. -/
def consonantRunReaches6 : Nat → List Char → Bool
  | count, [] => decide (6 ≤ count)
  | count, c :: cs =>
      if isConsonantChar c then consonantRunReaches6 (count + 1) cs
      else decide (6 ≤ count) || consonantRunReaches6 0 cs

/-- Method `ContextValidator.isGibberish` from ContextValidator.ts: over the
lower-cased, trimmed query it checks (a) containment of a known gibberish
pattern, (b) `total > 5 && vowels / total < 0.15` where `vowels`/`consonants`
count the `[aeiou]` / `[bcdfghjklmnpqrstvwxyz]` characters, and (c) a
6-or-longer consonant run. -/
def isGibberish (query : String) : Bool :=
  let chars := normChars query
  if gibberishPatterns.any (fun p => listContainsSeq chars p.toList) then true
  else
    let vowels := chars.countP isVowelChar
    let consonants := chars.countP isConsonantChar
    let total := vowels + consonants
    if 5 < total ∧ (vowels : ℚ) / (total : ℚ) < 3/20 then true
    else if consonantRunReaches6 0 chars then true
    else false

/-- Restatement of the gibberish condition exactly as the claim words it: a
known gibberish substring, OR more than 5 alphabetic characters with a vowel
fraction below 0.15, OR a run of 6 or more consecutive consonants. -/
def gibberishSpec (query : String) : Bool :=
  let chars := normChars query
  let vowels := chars.countP isVowelChar
  let consonants := chars.countP isConsonantChar
  let total := vowels + consonants
  gibberishPatterns.any (fun p => listContainsSeq chars p.toList) ||
    (decide (5 < total) && decide ((vowels : ℚ) / (total : ℚ) < 3/20)) ||
    consonantRunReaches6 0 chars

/-! ## ContextManager (src/src/utils/KnowledgeGraph.ts, `ContextManager` module)

`Date.now()` timestamps are ambient inputs in the source; here every operation
takes the timestamp it would read as an explicit argument.  `save()` writes the
very context value to localStorage, so the persisted copy is the state itself
and needs no separate model. -/

/-- Message roles; `addMessage` only ever receives `user` or `bot`. -/
inductive Role where
  | user
  | bot
  | system
deriving DecidableEq, Repr

structure Message where
  role : Role
  content : String
  timestamp : Int
deriving DecidableEq, Repr

structure EntityItem where
  type : String
  value : String
  timestamp : Int
  expiresAfterTurns : Int
deriving DecidableEq, Repr

structure ActiveTopic where
  name : String
  confidence : ℚ
  lastMentionedAt : Int
deriving DecidableEq, Repr

structure IntentRecord where
  intent : String
  confidence : ℚ
  timestamp : Int
deriving DecidableEq, Repr

structure ConversationContext where
  version : Nat
  history : List Message
  recentIntents : List IntentRecord
  entityStack : List EntityItem
  activeTopic : Option ActiveTopic
deriving DecidableEq, Repr

/-- Constant `DEFAULT_CONTEXT` from the source. -/
def DEFAULT_CONTEXT : ConversationContext :=
  { version := 2
    history := []
    recentIntents := []
    entityStack := []
    activeTopic := none }

/-- Constant `MAX_HISTORY = 10`. -/
def MAX_HISTORY : Nat := 10

/-- Constant `DEFAULT_ENTITY_EXPIRY = 3` turns. -/
def DEFAULT_ENTITY_EXPIRY : Int := 3

/-- Method `ContextManager.decrementEntityExpiry`: decrement every entity's
`expiresAfterTurns`, then keep only those with `expiresAfterTurns > 0`. -/
def decrementEntityExpiry (stack : List EntityItem) : List EntityItem :=
  (stack.map fun e => { e with expiresAfterTurns := e.expiresAfterTurns - 1 }).filter
    fun e => 0 < e.expiresAfterTurns

/-- Method `ContextManager.decayTopicConfidence`: subtract 0.1 from the active topic's
confidence; if the result is `≤ 0.3` the topic is forgotten (set to `null`).
Caution: the source computes `confidence -= 0.1` on IEEE-754 doubles, where the
repeated subtraction accumulates rounding (for example `0.4 - 0.1` is
`0.30000000000000004`, which does not satisfy `<= 0.3`); this exact-rational
rendering clears the topic at inputs within one ulp of the 0.3 floor where the
program keeps it, so no theorem in this file may rest on that boundary. -/
def decayTopicConfidence (topic : Option ActiveTopic) : Option ActiveTopic :=
  match topic with
  | none => none
  | some t =>
      let c := t.confidence - 1/10
      if c ≤ 3/10 then none else some { t with confidence := c }

/-- Method `ContextManager.addMessage`: push the message onto the sliding window
(dropping the oldest when over `MAX_HISTORY`), then, only on a `user` turn,
run entity-expiry decrement and topic-confidence decay. -/
def addMessage (role : Role) (content : String) (now : Int)
    (ctx : ConversationContext) : ConversationContext :=
  let message : Message := { role := role, content := content, timestamp := now }
  let history := ctx.history ++ [message]
  let history := if MAX_HISTORY < history.length then history.tail else history
  if role = Role.user then
    { ctx with
      history := history
      entityStack := decrementEntityExpiry ctx.entityStack
      activeTopic := decayTopicConfidence ctx.activeTopic }
  else
    { ctx with history := history }

/-- Method `ContextManager.addEntity`: if the stack's top entry has the same value
(case-insensitively), refresh its expiry and stop; otherwise unshift a new item
with the default expiry and pop the bottom entry when the stack exceeds 5. -/
def addEntity (type value : String) (now : Int)
    (ctx : ConversationContext) : ConversationContext :=
  match ctx.entityStack with
  | top :: rest =>
      if lowerChars top.value = lowerChars value then
        { ctx with entityStack :=
            { top with expiresAfterTurns := DEFAULT_ENTITY_EXPIRY } :: rest }
      else
        let item : EntityItem :=
          { type := type, value := value, timestamp := now,
            expiresAfterTurns := DEFAULT_ENTITY_EXPIRY }
        let stack := item :: top :: rest
        { ctx with entityStack := if 5 < stack.length then stack.dropLast else stack }
  | [] =>
      let item : EntityItem :=
        { type := type, value := value, timestamp := now,
          expiresAfterTurns := DEFAULT_ENTITY_EXPIRY }
      let stack := [item]
      { ctx with entityStack := if 5 < stack.length then stack.dropLast else stack }

/-- Method `ContextManager.setTopic` (default confidence 1.0 at call sites that omit it). -/
def setTopic (name : String) (confidence : ℚ) (now : Int)
    (ctx : ConversationContext) : ConversationContext :=
  let topic : ActiveTopic :=
    { name := name, confidence := confidence, lastMentionedAt := now }
  { ctx with activeTopic := some topic }

/-- Method `ContextManager.trackIntent`: unshift the record, keep at most 5. -/
def trackIntent (intent : String) (confidence : ℚ) (now : Int)
    (ctx : ConversationContext) : ConversationContext :=
  let record : IntentRecord :=
    { intent := intent, confidence := confidence, timestamp := now }
  let recents := record :: ctx.recentIntents
  { ctx with recentIntents := if 5 < recents.length then recents.dropLast else recents }

/-- Method `ContextManager.reset`. -/
def resetContext (_ctx : ConversationContext) : ConversationContext :=
  DEFAULT_CONTEXT

/-- The public mutating operations of `ContextManager`, for stating invariants
over arbitrary operation sequences. -/
inductive CtxOp where
  | addMessage (role : Role) (content : String) (now : Int)
  | addEntity (type value : String) (now : Int)
  | setTopic (name : String) (confidence : ℚ) (now : Int)
  | trackIntent (intent : String) (confidence : ℚ) (now : Int)
  | reset

def applyOp (ctx : ConversationContext) : CtxOp → ConversationContext
  | .addMessage role content now => addMessage role content now ctx
  | .addEntity type value now => addEntity type value now ctx
  | .setTopic name confidence now => setTopic name confidence now ctx
  | .trackIntent intent confidence now => trackIntent intent confidence now ctx
  | .reset => resetContext ctx

def applyOps (ops : List CtxOp) (ctx : ConversationContext) : ConversationContext :=
  ops.foldl applyOp ctx

/-- A sequence of consecutive user turns: each turn adds one user message
(content and timestamp arbitrary), triggering the decay logic. -/
def applyUserTurns (turns : List (String × Int)) (ctx : ConversationContext) :
    ConversationContext :=
  turns.foldl (fun c t => addMessage Role.user t.1 t.2 c) ctx

/-! ## ContextResolver (src/unnamed/part_009) -/

/-- Scoring weights: `RECENCY = 0.2`, `TOPIC = 0.3`, `MENTION = 0.5`. -/
def WEIGHT_RECENCY : ℚ := 2/10
def WEIGHT_TOPIC : ℚ := 3/10
def WEIGHT_MENTION : ℚ := 5/10

structure ScoredCandidate where
  entity : EntityItem
  score : ℚ
  recency : ℚ
  topic : ℚ
  mention : ℚ
deriving DecidableEq, Repr

structure ResolutionResult where
  resolvedEntity : Option EntityItem
  confidence : ℚ
  isAmbiguous : Bool
  /-- Omitted (`undefined`, hence falsy) on the empty-stack path. -/
  clarificationNeeded : Bool
  candidates : List ScoredCandidate
deriving DecidableEq, Repr

/-- Method `calculateRecencyScore`: `max(0, 1 - index / 10)`. -/
def calculateRecencyScore (index : Nat) : ℚ :=
  max 0 (1 - (index : ℚ) / 10)

/-- Method `calculateTopicScore`: 1 when the entity value contains the active topic
name (both lower-cased), 0 otherwise or when there is no active topic. -/
def calculateTopicScore (e : EntityItem) (activeTopic : Option String) : ℚ :=
  match activeTopic with
  | none => 0
  | some t => if listContainsSeq (lowerChars e.value) (lowerChars t) then 1 else 0

/-- Method `calculateMentionScore`: 1 when the query contains the entity value
(both lower-cased), 0 otherwise. -/
def calculateMentionScore (query value : String) : ℚ :=
  if listContainsSeq (lowerChars query) (lowerChars value) then 1 else 0

/-- One scored candidate per stack entry (`stack.map((entity, index) => …)`). -/
def scoreCandidates (query : String) (ctx : ConversationContext) :
    List ScoredCandidate :=
  ctx.entityStack.enum.map fun p =>
    let recency := calculateRecencyScore p.1
    let topic := calculateTopicScore p.2 (ctx.activeTopic.map ActiveTopic.name)
    let mention := calculateMentionScore query p.2.value
    { entity := p.2
      score := recency * WEIGHT_RECENCY + topic * WEIGHT_TOPIC +
        mention * WEIGHT_MENTION
      recency := recency, topic := topic, mention := mention }

/-- Descending order on scores: the comparator `(a, b) => b.score - a.score`
sorts the candidate array so that scores are non-increasing. -/
def scoreGE (a b : ScoredCandidate) : Prop := b.score ≤ a.score

instance : DecidableRel scoreGE := fun a b => inferInstanceAs (Decidable (b.score ≤ a.score))

instance : IsTotal ScoredCandidate scoreGE := ⟨fun a b => le_total b.score a.score⟩

instance : IsTrans ScoredCandidate scoreGE :=
  ⟨fun _ _ _ h h' => le_trans h' h⟩

/-- The sorted candidate array of `ContextResolver.resolve`. -/
def sortCandidates (query : String) (ctx : ConversationContext) :
    List ScoredCandidate :=
  (scoreCandidates query ctx).insertionSort scoreGE

/-- The ambiguity check of `ContextResolver.resolve`: with at least two
candidates, ambiguous iff the gap between the top two scores is `< 0.3`. -/
def ambiguityFlag (top : ScoredCandidate) (rest : List ScoredCandidate) : Bool :=
  match rest with
  | [] => false
  | second :: _ => decide (top.score - second.score < 3/10)

/-- Method `ContextResolver.resolve`: empty stack → null result with confidence 0;
otherwise score every stack entity, sort descending, flag ambiguity when the
top-two gap is `< 0.3`, and require clarification when additionally the top
score is `< 0.8`.  Returns the top three candidates. -/
def resolve (query : String) (ctx : ConversationContext) : ResolutionResult :=
  match sortCandidates query ctx with
  | [] =>
      { resolvedEntity := none, confidence := 0, isAmbiguous := false
        clarificationNeeded := false, candidates := [] }
  | top :: rest =>
      { resolvedEntity := some top.entity
        confidence := top.score
        isAmbiguous := ambiguityFlag top rest
        clarificationNeeded := ambiguityFlag top rest && decide (top.score < 8/10)
        candidates := (top :: rest).take 3 }

/-! ## LumoAI.generateResponse (src/unnamed/part_012, lines 359–586)

The per-turn entry point wraps the whole layered cascade in
`try { … Promise.race([logicPromise, timeoutPromise]) … } catch { apology }`.
The cascade body itself touches every subsystem (flow engine, JSON content,
`Math.random`, `Date.now`), so a turn is modelled by its observable outcome:
the cascade either produced a response, or threw somewhere inside, or the
1.5-second timeout promise won the race (rejecting with `Error("Timeout")`).
`generateResponse` maps that outcome to the reply the caller receives. -/

structure Suggestion where
  label : String
  payload : String
  icon : Option String := none
deriving DecidableEq, Repr

structure LumoResponse where
  text : String
  suggestions : Option (List Suggestion) := none
deriving DecidableEq, Repr

/-- Outcome of racing the cascade against the 1.5 s timeout. -/
inductive TurnOutcome where
  | completed (r : LumoResponse)
  | raised (err : String)
  | timedOut
deriving DecidableEq, Repr

/-- The generic apology returned by the top-level `catch` block, with three
generated suggestions (modelled by the suggestion list the generator returns,
passed in as `fallbackSuggestions`). -/
def apologyText : String :=
  "My brain hiccupped! 🤯 I encountered an unexpected error. Could we try that again?"

def apologyResponse (fallbackSuggestions : List Suggestion) : LumoResponse :=
  { text := apologyText, suggestions := some fallbackSuggestions }

/-- Method `LumoAI.generateResponse`, lines 359–586: `await Promise.race` rethrows a
rejection of either promise inside the `try`, and the `catch` converts any
error — a layer's exception or the timeout — into the generic apology. -/
def generateResponse (outcome : TurnOutcome)
    (fallbackSuggestions : List Suggestion) : LumoResponse :=
  match outcome with
  | .completed r => r
  | .raised _ => apologyResponse fallbackSuggestions
  | .timedOut => apologyResponse fallbackSuggestions

/-- The entity after `k` user-turn decrements (value and type untouched). -/
def decEntityBy (k : Nat) (e : EntityItem) : EntityItem :=
  { e with expiresAfterTurns := e.expiresAfterTurns - k }

/-! ### Concrete test fixtures -/

/-- The message value built by `addMessage`. -/
def mkMessage (role : Role) (content : String) (now : Int) : Message :=
  { role := role, content := content, timestamp := now }

/-- A single stack entity with two turns left to live. -/
def entityAcme : EntityItem :=
  { type := "company", value := "acme", timestamp := 0, expiresAfterTurns := 2 }

def ctxAcme : ConversationContext :=
  { DEFAULT_CONTEXT with entityStack := [entityAcme] }

/-- A stack holding "alpha" on top of "beta". -/
def ctxAlphaBeta : ConversationContext :=
  { DEFAULT_CONTEXT with entityStack :=
      [{ type := "company", value := "alpha", timestamp := 0, expiresAfterTurns := 3 },
       { type := "company", value := "beta", timestamp := 0, expiresAfterTurns := 3 }] }

/-- A stack whose top entry is "Beta" (upper-case B). -/
def ctxBetaTop : ConversationContext :=
  { DEFAULT_CONTEXT with entityStack :=
      [{ type := "company", value := "Beta", timestamp := 0, expiresAfterTurns := 1 }] }

/-! ## Helper lemmas -/

/-- The edit distance never exceeds the longer input's length (replace the
whole shorter string and insert or delete the rest). -/
theorem levenshteinDistance_le_max (xs ys : List Char) :
    levenshteinDistance xs ys ≤ max xs.length ys.length := by
  induction xs generalizing ys with
  | nil => simp [levenshteinDistance]
  | cons x xs ih =>
    cases ys with
    | nil => simp [levenshteinDistance]
    | cons y ys =>
      have h1 : levenshteinDistance (x :: xs) (y :: ys) ≤
          levenshteinDistance xs ys + 1 := by
        rw [levenshteinDistance]
        refine le_trans (min_le_right _ _) (le_trans (min_le_right _ _) ?_)
        have hc : (if x = y then 0 else 1) ≤ 1 := by split <;> omega
        omega
      have h2 := ih ys
      simp only [List.length_cons]
      omega


/-! ## Claim theorems -/

/-- C1: `generateResponse` always yields a well-formed `LumoResponse` value:
a successfully completed cascade's response is returned as-is, and any raised
exception or a lost race against the 1.5 s timeout is converted by the
top-level `catch` into the generic apology (text plus suggestions) instead of
propagating to the caller. -/
theorem generateResponse_always_answers :
    (∀ r fallback, generateResponse (TurnOutcome.completed r) fallback = r) ∧
      (∀ err fallback,
        generateResponse (TurnOutcome.raised err) fallback =
          apologyResponse fallback) ∧
      (∀ fallback,
        generateResponse TurnOutcome.timedOut fallback =
          apologyResponse fallback) :=
  ⟨fun _ _ => rfl, fun _ _ => rfl, fun _ => rfl⟩

/-- C4 counterexample: the claim says `similarity` returns 0.0 whenever either
input is empty, but the identity check comes first in the source, so both
inputs empty yields 1.0, not 0.0. -/
theorem similarity_empty_empty_is_one :
    similarity "" "" = 1 ∧ (1 : ℚ) ≠ 0 := by
  constructor
  · rfl
  · norm_num

/-- C4 (amended): `similarity` returns 1.0 for identical inputs and for inputs
identical after trimming and lowercasing when both are non-empty; it returns
0.0 when either input is empty and they are not identical; otherwise it equals
`1 - levenshteinDistance / max(len, len)` over the normalized strings; and the
result always lies in `[0, 1]`. -/
theorem similarity_spec (a b : String) :
    (a = b → similarity a b = 1) ∧
      (a ≠ b → (a = "" ∨ b = "") → similarity a b = 0) ∧
      (a ≠ "" → b ≠ "" → normChars a = normChars b → similarity a b = 1) ∧
      (a ≠ "" → b ≠ "" → normChars a ≠ normChars b →
        similarity a b =
          1 - (levenshteinDistance (normChars a) (normChars b) : ℚ) /
            (max (normChars a).length (normChars b).length : ℚ)) ∧
      0 ≤ similarity a b ∧ similarity a b ≤ 1 := by
  refine ⟨?_, ?_, ?_, ?_, ?_⟩
  · intro h
    simp [similarity, h]
  · intro hne hemp
    simp [similarity, hne, hemp]
  · intro ha hb heq
    by_cases hab : a = b
    · simp [similarity, hab]
    · simp [similarity, hab, ha, hb, heq]
  · intro ha hb hne
    have hab : a ≠ b := fun h => hne (by rw [h])
    simp [similarity, hab, ha, hb, hne]
  · -- Range [0, 1].
    by_cases hab : a = b
    · simp [similarity, hab]
    · by_cases hemp : a = "" ∨ b = ""
      · have hz : similarity a b = 0 := by simp [similarity, hab, hemp]
        rw [hz]
        norm_num
      · push_neg at hemp
        by_cases heq : normChars a = normChars b
        · simp [similarity, hab, hemp.1, hemp.2, heq]
        · have hval : similarity a b =
              1 - (levenshteinDistance (normChars a) (normChars b) : ℚ) /
                ((max (normChars a).length (normChars b).length : ℕ) : ℚ) := by
            simp [similarity, hab, hemp.1, hemp.2, heq]
          set d := levenshteinDistance (normChars a) (normChars b) with hd
          set m := max (normChars a).length (normChars b).length with hm
          have hdm : d ≤ m := levenshteinDistance_le_max _ _
          have hmpos : 0 < m := by
            rcases Nat.eq_zero_or_pos m with h0 | h0
            · exfalso
              have h1 : (normChars a).length = 0 := by omega
              have h2 : (normChars b).length = 0 := by
                have := hm
                omega
              have e1 : normChars a = [] := List.length_eq_zero.mp h1
              have e2 : normChars b = [] := List.length_eq_zero.mp h2
              exact heq (e1.trans e2.symm)
            · exact h0
          have hmq : (0 : ℚ) < (m : ℚ) := by exact_mod_cast hmpos
          have hdq : (d : ℚ) ≤ (m : ℚ) := by exact_mod_cast hdm
          have hfrac0 : (0 : ℚ) ≤ (d : ℚ) / (m : ℚ) :=
            div_nonneg (by positivity) (le_of_lt hmq)
          have hfrac1 : (d : ℚ) / (m : ℚ) ≤ 1 := (div_le_one hmq).mpr hdq
          rw [hval]
          constructor <;> linarith

/-- C4 witness: concrete evaluations obtained from `similarity_spec`. -/
theorem similarity_spec_witness :
    similarity "hello" " HELLO " = 1 ∧ similarity "x" "" = 0 ∧
      0 ≤ similarity "cat" "hat" ∧ similarity "cat" "hat" ≤ 1 :=
  ⟨(similarity_spec "hello" " HELLO ").2.2.1 (by decide) (by decide) (by decide),
    (similarity_spec "x" "").2.1 (by decide) (Or.inr rfl),
    (similarity_spec "cat" "hat").2.2.2.2.1,
    (similarity_spec "cat" "hat").2.2.2.2.2⟩

/-- C9: `isGibberish` returns true exactly when the lower-cased trimmed text
contains a known gibberish substring, or has more than 5 alphabetic characters
with a vowel fraction below 0.15, or contains a run of 6 or more consecutive
consonants; in particular it accepts "asdfgh" and rejects
"tell me about his experience". -/
theorem isGibberish_spec :
    (∀ q : String, isGibberish q = gibberishSpec q) ∧
      isGibberish "asdfgh" = true ∧
      isGibberish "tell me about his experience" = false := by
  refine ⟨?_, ?_, ?_⟩
  · intro q
    simp only [isGibberish, gibberishSpec]
    split_ifs with h1 h2 h3 <;> simp_all
  · have h1 : gibberishPatterns.any
        (fun p => listContainsSeq (normChars "asdfgh") p.toList) = true := by decide
    simp only [isGibberish]
    rw [h1]
    simp
  · have h1 : gibberishPatterns.any
        (fun p => listContainsSeq (normChars "tell me about his experience") p.toList) =
          false := by decide
    have h2 : (normChars "tell me about his experience").countP isVowelChar = 11 := by
      decide
    have h3 : (normChars "tell me about his experience").countP isConsonantChar = 13 := by
      decide
    have h4 : consonantRunReaches6 0 (normChars "tell me about his experience") = false := by
      decide
    simp only [isGibberish]
    rw [h1, h2, h3, h4]
    norm_num

theorem decrementEntityExpiry_eq (s : List EntityItem) :
    decrementEntityExpiry s =
      (s.map (decEntityBy 1)).filter (fun e => 0 < e.expiresAfterTurns) := rfl

theorem decrementEntityExpiry_cons (x : EntityItem) (l : List EntityItem) :
    decrementEntityExpiry (x :: l) =
      if 0 < (decEntityBy 1 x).expiresAfterTurns
      then decEntityBy 1 x :: decrementEntityExpiry l
      else decrementEntityExpiry l := by
  rw [decrementEntityExpiry_eq, List.map_cons, List.filter_cons]
  by_cases h : 0 < (decEntityBy 1 x).expiresAfterTurns
  · simp [h, decrementEntityExpiry_eq]
  · simp [h, decrementEntityExpiry_eq]

theorem decrementEntityExpiry_step (k : Nat) (s : List EntityItem) :
    decrementEntityExpiry
        ((s.map (decEntityBy k)).filter (fun e => 0 < e.expiresAfterTurns)) =
      (s.map (decEntityBy (k + 1))).filter (fun e => 0 < e.expiresAfterTurns) := by
  induction s with
  | nil => rfl
  | cons e s ih =>
    have hdec : decEntityBy 1 (decEntityBy k e) = decEntityBy (k + 1) e := by
      simp only [decEntityBy]
      congr 1
      push_cast
      ring
    rw [List.map_cons, List.map_cons, List.filter_cons, List.filter_cons]
    by_cases h1 : 0 < (decEntityBy k e).expiresAfterTurns
    · by_cases h2 : 0 < (decEntityBy (k + 1) e).expiresAfterTurns
      · simp [h1, h2, decrementEntityExpiry_cons, hdec, ih]
      · simp [h1, h2, decrementEntityExpiry_cons, hdec, ih]
    · have h2 : ¬ 0 < (decEntityBy (k + 1) e).expiresAfterTurns := by
        simp only [decEntityBy] at h1 ⊢
        push_cast at h1 ⊢
        omega
      simp [h1, h2, ih]

theorem decrementEntityExpiry_iterate (k : Nat) (s : List EntityItem) :
    decrementEntityExpiry^[k + 1] s =
      (s.map (decEntityBy (k + 1))).filter (fun e => 0 < e.expiresAfterTurns) := by
  induction k with
  | zero => simpa using decrementEntityExpiry_eq s
  | succ k ih =>
    rw [Function.iterate_succ_apply', ih, decrementEntityExpiry_step]

theorem applyUserTurns_entityStack (turns : List (String × Int))
    (ctx : ConversationContext) :
    (applyUserTurns turns ctx).entityStack =
      decrementEntityExpiry^[turns.length] ctx.entityStack := by
  induction turns generalizing ctx with
  | nil => rfl
  | cons t ts ih =>
    have hstep : (addMessage Role.user t.1 t.2 ctx).entityStack =
        decrementEntityExpiry ctx.entityStack := by
      simp [addMessage]
    calc (applyUserTurns (t :: ts) ctx).entityStack
        = (applyUserTurns ts (addMessage Role.user t.1 t.2 ctx)).entityStack := rfl
      _ = decrementEntityExpiry^[ts.length]
            (addMessage Role.user t.1 t.2 ctx).entityStack := ih _
      _ = decrementEntityExpiry^[ts.length] (decrementEntityExpiry ctx.entityStack) := by
            rw [hstep]
      _ = decrementEntityExpiry^[(t :: ts).length] ctx.entityStack := by
            rw [List.length_cons, Function.iterate_succ_apply]

/-- C5: an entity carrying `expiresAfterTurns = N ≥ 1` is still on the stack
(same value and type, counter 1) after N−1 consecutive user turns, every
surviving entity always has a strictly positive counter (eviction happens at
≤ 0), and the N-times-decremented entity is gone after the N-th user turn. -/
theorem entity_expiry_spec (ctx : ConversationContext) (e : EntityItem) (N : Nat)
    (turnsA turnsB : List (String × Int))
    (he : e ∈ ctx.entityStack) (hN : e.expiresAfterTurns = (N : Int)) (hN1 : 1 ≤ N)
    (hA : turnsA.length = N - 1) (hB : turnsB.length = N) :
    (∃ e' ∈ (applyUserTurns turnsA ctx).entityStack,
        e'.value = e.value ∧ e'.type = e.type ∧ e'.expiresAfterTurns = 1) ∧
      (∀ x ∈ (applyUserTurns turnsB ctx).entityStack, 0 < x.expiresAfterTurns) ∧
      decEntityBy N e ∉ (applyUserTurns turnsB ctx).entityStack := by
  have hBpos : ∃ m, turnsB.length = m + 1 := ⟨N - 1, by omega⟩
  obtain ⟨m, hm⟩ := hBpos
  have hstB : (applyUserTurns turnsB ctx).entityStack =
      (ctx.entityStack.map (decEntityBy (m + 1))).filter
        (fun x => 0 < x.expiresAfterTurns) := by
    rw [applyUserTurns_entityStack, hm, decrementEntityExpiry_iterate]
  have hposB : ∀ x ∈ (applyUserTurns turnsB ctx).entityStack,
      0 < x.expiresAfterTurns := by
    intro x hx
    rw [hstB] at hx
    have := (List.mem_filter.mp hx).2
    simpa using this
  refine ⟨?_, hposB, ?_⟩
  · cases hAcase : turnsA with
    | nil =>
      have hN1e : N = 1 := by
        rw [hAcase] at hA
        simp at hA
        omega
      refine ⟨e, ?_, rfl, rfl, ?_⟩
      · simpa [applyUserTurns, hAcase] using he
      · rw [hN, hN1e]
        rfl
    | cons a l =>
      rw [hAcase] at hA
      simp only [List.length_cons] at hA
      have hstA : (applyUserTurns (a :: l) ctx).entityStack =
          (ctx.entityStack.map (decEntityBy (l.length + 1))).filter
            (fun x => 0 < x.expiresAfterTurns) := by
        rw [applyUserTurns_entityStack, List.length_cons, decrementEntityExpiry_iterate]
      refine ⟨decEntityBy (l.length + 1) e, ?_, rfl, rfl, ?_⟩
      · rw [hstA]
        refine List.mem_filter.mpr ⟨List.mem_map_of_mem _ he, ?_⟩
        simp only [decEntityBy, hN, decide_eq_true_eq]
        omega
      · simp only [decEntityBy, hN]
        omega
  · intro hmem
    have := hposB _ hmem
    simp only [decEntityBy, hN] at this
    omega

/-- C5 witness: an entity with 2 turns to live survives one user turn and is
evicted on the second. -/
theorem entity_expiry_spec_witness :
    entityAcme ∈ ctxAcme.entityStack ∧
      (∃ e' ∈ (applyUserTurns [("x", 1)] ctxAcme).entityStack,
          e'.value = entityAcme.value ∧ e'.type = entityAcme.type ∧
            e'.expiresAfterTurns = 1) ∧
      (∀ x ∈ (applyUserTurns [("x", 1), ("y", 2)] ctxAcme).entityStack,
        0 < x.expiresAfterTurns) ∧
      decEntityBy 2 entityAcme ∉
        (applyUserTurns [("x", 1), ("y", 2)] ctxAcme).entityStack := by
  refine ⟨by decide, ?_⟩
  exact entity_expiry_spec ctxAcme entityAcme 2 [("x", 1)] [("x", 1), ("y", 2)]
    (by decide) (by decide) (by decide) (by decide) (by decide)

/-- C6 counterexample: "beta" already occurs (case-insensitively) on the stack,
just not at the top, so `addEntity` pushes a second copy: the stack grows from
2 to 3 and now holds two entries whose value is "beta". -/
theorem addEntity_duplicate_grows_stack :
    (ctxAlphaBeta.entityStack.map EntityItem.value).contains "beta" = true ∧
      ctxAlphaBeta.entityStack.length = 2 ∧
      (addEntity "company" "beta" 7 ctxAlphaBeta).entityStack.length = 3 ∧
      (addEntity "company" "beta" 7 ctxAlphaBeta).entityStack.countP
        (fun e => e.value == "beta") = 2 := by
  decide

/-- C6 (amended): deduplication only inspects the top of the stack — when the
incoming value matches the top entry's value case-insensitively, that entry's
expiry is refreshed and the stack keeps its length; duplicates deeper in the
stack are not detected. -/
theorem addEntity_top_dedup (ctx : ConversationContext) (t v : String) (now : Int)
    (hd : EntityItem) (tl : List EntityItem)
    (hstack : ctx.entityStack = hd :: tl)
    (hdup : lowerChars hd.value = lowerChars v) :
    (addEntity t v now ctx).entityStack =
        { hd with expiresAfterTurns := DEFAULT_ENTITY_EXPIRY } :: tl ∧
      (addEntity t v now ctx).entityStack.length = ctx.entityStack.length := by
  have h1 : (addEntity t v now ctx).entityStack =
      { hd with expiresAfterTurns := DEFAULT_ENTITY_EXPIRY } :: tl := by
    simp [addEntity, hstack, hdup]
  refine ⟨h1, ?_⟩
  rw [h1, hstack]
  simp

/-- C6 witness: inserting "beta" onto a stack whose top is "Beta" refreshes
the top entry instead of growing the stack. -/
theorem addEntity_top_dedup_witness :
    (addEntity "company" "beta" 5 ctxBetaTop).entityStack =
        [{ type := "company", value := "Beta", timestamp := 0,
           expiresAfterTurns := 3 }] ∧
      (addEntity "company" "beta" 5 ctxBetaTop).entityStack.length =
        ctxBetaTop.entityStack.length :=
  addEntity_top_dedup ctxBetaTop "company" "beta" 5
    { type := "company", value := "Beta", timestamp := 0, expiresAfterTurns := 1 }
    [] rfl (by decide)

theorem applyOp_stack_le (ctx : ConversationContext) (op : CtxOp)
    (h : ctx.entityStack.length ≤ 5) : (applyOp ctx op).entityStack.length ≤ 5 := by
  cases op with
  | addMessage role content now =>
    simp only [applyOp, addMessage]
    by_cases hr : role = Role.user
    · simp only [hr, if_pos rfl]
      have h1 : (decrementEntityExpiry ctx.entityStack).length ≤
          ctx.entityStack.length := by
        rw [decrementEntityExpiry_eq]
        calc ((ctx.entityStack.map (decEntityBy 1)).filter
                (fun e => 0 < e.expiresAfterTurns)).length
            ≤ (ctx.entityStack.map (decEntityBy 1)).length :=
              List.length_filter_le _ _
          _ = ctx.entityStack.length := List.length_map _ _
      simp only [ite_true]
      omega
    · simp [hr, h]
  | addEntity t v now =>
    simp only [applyOp, addEntity]
    cases hstack : ctx.entityStack with
    | nil => simp
    | cons hd tl =>
      rw [hstack] at h
      simp only [List.length_cons] at h
      by_cases hdup : lowerChars hd.value = lowerChars v
      · simp [hdup]
        omega
      · simp only [hdup, if_neg, ite_false]
        split_ifs with hlen
        · simp only [List.length_dropLast, List.length_cons]
          omega
        · simp only [List.length_cons] at hlen ⊢
          omega
  | setTopic name confidence now => simpa [applyOp, setTopic] using h
  | trackIntent intent confidence now => simpa [applyOp, trackIntent] using h
  | reset => simp [applyOp, resetContext, DEFAULT_CONTEXT]

/-- C7: starting from the default context, no sequence of `ContextManager`
operations can make the entity stack exceed 5 entries. -/
theorem entity_stack_bounded (ops : List CtxOp) :
    (applyOps ops DEFAULT_CONTEXT).entityStack.length ≤ 5 := by
  suffices h : ∀ ctx : ConversationContext, ctx.entityStack.length ≤ 5 →
      (applyOps ops ctx).entityStack.length ≤ 5 by
    exact h DEFAULT_CONTEXT (by simp [DEFAULT_CONTEXT])
  induction ops with
  | nil => exact fun ctx h => h
  | cons op ops ih =>
    intro ctx h
    exact ih (applyOp ctx op) (applyOp_stack_le ctx op h)

/-- C8: adding a bot message leaves the entity stack (every expiry counter),
the active topic (its confidence), the recent intents and the version
untouched; only the sliding history window changes, and the persisted copy is
that same context value. -/
theorem addMessage_bot_frame (ctx : ConversationContext) (content : String)
    (now : Int) :
    (addMessage Role.bot content now ctx).entityStack = ctx.entityStack ∧
      (addMessage Role.bot content now ctx).activeTopic = ctx.activeTopic ∧
      (addMessage Role.bot content now ctx).recentIntents = ctx.recentIntents ∧
      (addMessage Role.bot content now ctx).version = ctx.version ∧
      (addMessage Role.bot content now ctx).history =
        (if MAX_HISTORY < (ctx.history ++ [mkMessage Role.bot content now]).length
         then (ctx.history ++ [mkMessage Role.bot content now]).tail
         else ctx.history ++ [mkMessage Role.bot content now]) := by
  refine ⟨?_, ?_, ?_, ?_, ?_⟩ <;> simp [addMessage, mkMessage]

theorem resolve_eq_of_sort_nil (query : String) (ctx : ConversationContext)
    (h : sortCandidates query ctx = []) :
    resolve query ctx =
      { resolvedEntity := none, confidence := 0, isAmbiguous := false
        clarificationNeeded := false, candidates := [] } := by
  unfold resolve
  rw [h]

theorem resolve_eq_of_sort_cons (query : String) (ctx : ConversationContext)
    (top : ScoredCandidate) (rest : List ScoredCandidate)
    (h : sortCandidates query ctx = top :: rest) :
    resolve query ctx =
      { resolvedEntity := some top.entity
        confidence := top.score
        isAmbiguous := ambiguityFlag top rest
        clarificationNeeded := ambiguityFlag top rest && decide (top.score < 8/10)
        candidates := (top :: rest).take 3 } := by
  unfold resolve
  rw [h]

theorem sortCandidates_length (query : String) (ctx : ConversationContext) :
    (sortCandidates query ctx).length = ctx.entityStack.length := by
  rw [sortCandidates, (List.perm_insertionSort scoreGE _).length_eq, scoreCandidates]
  simp

theorem scoreCandidates_score_bounds (query : String) (ctx : ConversationContext) :
    ∀ cand ∈ scoreCandidates query ctx, 0 ≤ cand.score ∧ cand.score ≤ 1 := by
  intro cand hc
  rw [scoreCandidates] at hc
  obtain ⟨p, hp, hpc⟩ := List.mem_map.mp hc
  have hr0 : 0 ≤ calculateRecencyScore p.1 := le_max_left 0 _
  have hr1 : calculateRecencyScore p.1 ≤ 1 := by
    apply max_le
    · norm_num
    · have hpos : (0 : ℚ) ≤ (p.1 : ℚ) / 10 := by positivity
      linarith
  have ht : 0 ≤ calculateTopicScore p.2 (ctx.activeTopic.map ActiveTopic.name) ∧
      calculateTopicScore p.2 (ctx.activeTopic.map ActiveTopic.name) ≤ 1 := by
    unfold calculateTopicScore
    cases ctx.activeTopic.map ActiveTopic.name <;> simp <;> split_ifs <;> norm_num
  have hm : 0 ≤ calculateMentionScore query p.2.value ∧
      calculateMentionScore query p.2.value ≤ 1 := by
    unfold calculateMentionScore
    split_ifs <;> norm_num
  rw [← hpc]
  simp only [WEIGHT_RECENCY, WEIGHT_TOPIC, WEIGHT_MENTION]
  constructor
  · have t1 : (0 : ℚ) ≤ calculateRecencyScore p.1 * (2/10) :=
      mul_nonneg hr0 (by norm_num)
    have t2 : (0 : ℚ) ≤
        calculateTopicScore p.2 (ctx.activeTopic.map ActiveTopic.name) * (3/10) :=
      mul_nonneg ht.1 (by norm_num)
    have t3 : (0 : ℚ) ≤ calculateMentionScore query p.2.value * (5/10) :=
      mul_nonneg hm.1 (by norm_num)
    linarith
  · have t1 : calculateRecencyScore p.1 * (2/10) ≤ 1 * (2/10) :=
      mul_le_mul_of_nonneg_right hr1 (by norm_num)
    have t2 : calculateTopicScore p.2 (ctx.activeTopic.map ActiveTopic.name) * (3/10) ≤
        1 * (3/10) := mul_le_mul_of_nonneg_right ht.2 (by norm_num)
    have t3 : calculateMentionScore query p.2.value * (5/10) ≤ 1 * (5/10) :=
      mul_le_mul_of_nonneg_right hm.2 (by norm_num)
    linarith

/-- C2: whenever the entity stack holds at least two entities, `resolve` sorts
all stack entities by the weighted score `0.2·recency + 0.3·topic + 0.5·mention`
(descending, a permutation of the scored stack), reports ambiguity exactly when
the top two scores differ by less than 0.3, and requires clarification exactly
when it is ambiguous and the top score is below 0.8. -/
theorem resolve_ambiguity_spec (query : String) (ctx : ConversationContext)
    (hlen : 2 ≤ ctx.entityStack.length) :
    ∃ c1 c2 rest, sortCandidates query ctx = c1 :: c2 :: rest ∧
      ((resolve query ctx).isAmbiguous = true ↔ c1.score - c2.score < 3/10) ∧
      ((resolve query ctx).clarificationNeeded = true ↔
        ((resolve query ctx).isAmbiguous = true ∧ c1.score < 8/10)) ∧
      (resolve query ctx).confidence = c1.score ∧
      (resolve query ctx).resolvedEntity = some c1.entity ∧
      (sortCandidates query ctx).Sorted scoreGE ∧
      (sortCandidates query ctx).Perm (scoreCandidates query ctx) ∧
      (∀ cand ∈ scoreCandidates query ctx,
        cand.score = cand.recency * WEIGHT_RECENCY + cand.topic * WEIGHT_TOPIC +
          cand.mention * WEIGHT_MENTION) := by
  have hlen2 : 2 ≤ (sortCandidates query ctx).length := by
    rw [sortCandidates_length]
    exact hlen
  obtain ⟨c1, c2, rest, hs⟩ :
      ∃ c1 c2 rest, sortCandidates query ctx = c1 :: c2 :: rest := by
    cases h1 : sortCandidates query ctx with
    | nil => rw [h1] at hlen2; simp at hlen2
    | cons c1 l =>
      cases h2 : l with
      | nil => rw [h1, h2] at hlen2; simp at hlen2
      | cons c2 rest =>
        subst h2
        exact ⟨c1, c2, rest, rfl⟩
  have hres := resolve_eq_of_sort_cons query ctx c1 (c2 :: rest) hs
  refine ⟨c1, c2, rest, hs, ?_, ?_, ?_, ?_, ?_, ?_, ?_⟩
  · rw [hres]
    simp [ambiguityFlag]
  · rw [hres]
    simp [ambiguityFlag]
  · rw [hres]
  · rw [hres]
  · exact List.sorted_insertionSort scoreGE _
  · exact List.perm_insertionSort scoreGE _
  · intro cand hc
    rw [scoreCandidates] at hc
    obtain ⟨p, hp, hpc⟩ := List.mem_map.mp hc
    rw [← hpc]

/-- C2 witness: a two-entity stack with no topic and no mention in the query;
the scores are 0.2 and 0.18, so the result is ambiguous with low confidence. -/
theorem resolve_ambiguity_spec_witness :
    2 ≤ ctxAlphaBeta.entityStack.length ∧
      (∃ c1 c2 rest, sortCandidates "what is it" ctxAlphaBeta = c1 :: c2 :: rest ∧
        ((resolve "what is it" ctxAlphaBeta).isAmbiguous = true ↔
          c1.score - c2.score < 3/10) ∧
        ((resolve "what is it" ctxAlphaBeta).clarificationNeeded = true ↔
          ((resolve "what is it" ctxAlphaBeta).isAmbiguous = true ∧
            c1.score < 8/10)) ∧
        (resolve "what is it" ctxAlphaBeta).confidence = c1.score ∧
        (resolve "what is it" ctxAlphaBeta).resolvedEntity = some c1.entity ∧
        (sortCandidates "what is it" ctxAlphaBeta).Sorted scoreGE ∧
        (sortCandidates "what is it" ctxAlphaBeta).Perm
          (scoreCandidates "what is it" ctxAlphaBeta) ∧
        (∀ cand ∈ scoreCandidates "what is it" ctxAlphaBeta,
          cand.score = cand.recency * WEIGHT_RECENCY + cand.topic * WEIGHT_TOPIC +
            cand.mention * WEIGHT_MENTION)) :=
  ⟨by decide, resolve_ambiguity_spec "what is it" ctxAlphaBeta (by decide)⟩

/-- C10: the three resolver signals each lie in [0,1], the weights 0.2, 0.3,
0.5 sum to 1, the confidence returned by `resolve` always lies in [0,1], and
an empty entity stack yields confidence 0. -/
theorem resolve_confidence_unit_interval :
    (∀ i : Nat, 0 ≤ calculateRecencyScore i ∧ calculateRecencyScore i ≤ 1) ∧
      (∀ (e : EntityItem) (t : Option String),
        0 ≤ calculateTopicScore e t ∧ calculateTopicScore e t ≤ 1) ∧
      (∀ q v : String, 0 ≤ calculateMentionScore q v ∧
        calculateMentionScore q v ≤ 1) ∧
      WEIGHT_RECENCY + WEIGHT_TOPIC + WEIGHT_MENTION = 1 ∧
      (∀ (query : String) (ctx : ConversationContext),
        0 ≤ (resolve query ctx).confidence ∧ (resolve query ctx).confidence ≤ 1) ∧
      (∀ (query : String) (ctx : ConversationContext), ctx.entityStack = [] →
        (resolve query ctx).confidence = 0) := by
  refine ⟨?_, ?_, ?_, ?_, ?_, ?_⟩
  · intro i
    refine ⟨le_max_left 0 _, ?_⟩
    apply max_le
    · norm_num
    · have hpos : (0 : ℚ) ≤ (i : ℚ) / 10 := by positivity
      linarith
  · intro e t
    unfold calculateTopicScore
    cases t <;> simp <;> split_ifs <;> norm_num
  · intro q v
    unfold calculateMentionScore
    split_ifs <;> norm_num
  · simp only [WEIGHT_RECENCY, WEIGHT_TOPIC, WEIGHT_MENTION]
    norm_num
  · intro query ctx
    cases hs : sortCandidates query ctx with
    | nil =>
      rw [resolve_eq_of_sort_nil query ctx hs]
      norm_num
    | cons top rest =>
      rw [resolve_eq_of_sort_cons query ctx top rest hs]
      have htop : top ∈ sortCandidates query ctx := by
        rw [hs]
        exact List.mem_cons_self _ _
      rw [sortCandidates, List.mem_insertionSort] at htop
      exact scoreCandidates_score_bounds query ctx top htop
  · intro query ctx hstack
    have hs : sortCandidates query ctx = [] := by
      have := sortCandidates_length query ctx
      rw [hstack] at this
      simpa using List.length_eq_zero.mp (by simpa using this)
    rw [resolve_eq_of_sort_nil query ctx hs]

/-- C10 witness: the empty default context yields confidence 0. -/
theorem resolve_confidence_unit_interval_witness :
    (resolve "hello" DEFAULT_CONTEXT).confidence = 0 ∧
      0 ≤ (resolve "hello" DEFAULT_CONTEXT).confidence :=
  ⟨(resolve_confidence_unit_interval.2.2.2.2.2) "hello" DEFAULT_CONTEXT rfl,
    ((resolve_confidence_unit_interval.2.2.2.2.1) "hello" DEFAULT_CONTEXT).1⟩

end Lumo
